import Mathlib

/-!
Verification of the Excalidraw MCP scene-mutation engine
(src/nuwa-excalidraw/artifact/src/hooks/UseExcalidrawMcp.ts).

The TypeScript hook keeps the scene as an ordered array of element
skeletons; each tool handler validates its input, computes a new scene and
returns a JSON envelope.  We embed the post-validation behaviour of the
handlers: scenes are lists of `Element`, optional JS properties are
`Option`, numbers are real numbers, and each handler becomes a pure
function returning a response value paired with the new scene.
-/

namespace Excalidraw

/-- Element kinds of the ShapeSchema discriminated union. -/
inductive ElemType
  | rectangle | ellipse | diamond | line | arrow | text | image | frame | magicframe
  deriving DecidableEq, Repr

inductive StrokeStyle
  | solid | dashed | dotted
  deriving DecidableEq, Repr

inductive FillStyle
  | solid | hachure | zigzag | crossHatch
  deriving DecidableEq, Repr

inductive TextAlign
  | left | center | right
  deriving DecidableEq, Repr

inductive VerticalAlign
  | top | middle | bottom
  deriving DecidableEq, Repr

/-- ArrowheadEnum; the string "none" is a convenience input, embedded as
`noneStr`, which the handlers map to undefined internally. -/
inductive Arrowhead
  | arrow | bar | dot | circle | circleOutline | triangle | triangleOutline
  | diamond | diamondOutline | crowfootOne | crowfootMany | crowfootOneOrMany
  | noneStr
  deriving DecidableEq, Repr

/-- LabelSchema: text label bound to a container or linear element. -/
structure Label where
  text : String
  fontSize : Option ℝ := Option.none
  fontFamily : Option String := Option.none
  textAlign : Option TextAlign := Option.none
  verticalAlign : Option VerticalAlign := Option.none
  x : Option ℝ := Option.none
  y : Option ℝ := Option.none
  strokeColor : Option String := Option.none

/-- An element skeleton as stored in the scene state.  Absent JS object
properties are `Option.none`.  The id is optional because arrows created
by connect_elements carry no id.  Linear endpoint bindings are embedded by
the id they reference (the only part of a binding this file reads or
writes); `startBind`/`endBind` stand for the JS fields `start`/`end`
(`end` is a reserved word in Lean). -/
structure Element where
  id : Option String := Option.none
  type : ElemType
  x : Option ℝ := Option.none
  y : Option ℝ := Option.none
  width : Option ℝ := Option.none
  height : Option ℝ := Option.none
  angle : Option ℝ := Option.none
  text : Option String := Option.none
  fontSize : Option ℝ := Option.none
  fontFamily : Option String := Option.none
  textAlign : Option TextAlign := Option.none
  verticalAlign : Option VerticalAlign := Option.none
  strokeColor : Option String := Option.none
  backgroundColor : Option String := Option.none
  strokeStyle : Option StrokeStyle := Option.none
  fillStyle : Option FillStyle := Option.none
  strokeWidth : Option ℝ := Option.none
  opacity : Option ℝ := Option.none
  roughness : Option ℝ := Option.none
  startArrowhead : Option Arrowhead := Option.none
  endArrowhead : Option Arrowhead := Option.none
  label : Option Label := Option.none
  startBind : Option String := Option.none
  endBind : Option String := Option.none
  containerId : Option String := Option.none
  fileId : Option String := Option.none
  children : Option (List String) := Option.none
  name : Option String := Option.none

/-- ElementUpdateSchema.props: the patch merged onto an existing element
by update_elements.  Every field is optional. -/
structure Props where
  x : Option ℝ := Option.none
  y : Option ℝ := Option.none
  width : Option ℝ := Option.none
  height : Option ℝ := Option.none
  angle : Option ℝ := Option.none
  text : Option String := Option.none
  strokeColor : Option String := Option.none
  backgroundColor : Option String := Option.none
  strokeStyle : Option StrokeStyle := Option.none
  fillStyle : Option FillStyle := Option.none
  strokeWidth : Option ℝ := Option.none
  opacity : Option ℝ := Option.none
  roughness : Option ℝ := Option.none
  fontSize : Option ℝ := Option.none
  fontFamily : Option String := Option.none
  textAlign : Option TextAlign := Option.none
  verticalAlign : Option VerticalAlign := Option.none
  startArrowhead : Option Arrowhead := Option.none
  endArrowhead : Option Arrowhead := Option.none

/-- ElementUpdateSchema: which id to update and what props to change. -/
structure Update where
  id : String
  props : Props

/-- JS object spread semantics for one optional property: a key present in
the patch (`some v`) overwrites, an absent key keeps the old value. -/
def mergeOpt {α : Type} (patch old : Option α) : Option α :=
  match patch with
  | Option.none => old
  | some v => some v

/-- Arrowhead normalization performed before the spread: the handlers set
`patch.startArrowhead = undefined` when it equals "none", so the key is
present with value undefined and clobbers the old value. -/
def mergeArrowhead (patch old : Option Arrowhead) : Option Arrowhead :=
  match patch with
  | Option.none => old
  | some Arrowhead.noneStr => Option.none
  | some a => some a

/-- The spread `{ ...e, ...patch }` in the update_elements handler, after
the "none" arrowhead normalization. -/
def applyPatch (e : Element) (p : Props) : Element :=
  { e with
    x := mergeOpt p.x e.x
    y := mergeOpt p.y e.y
    width := mergeOpt p.width e.width
    height := mergeOpt p.height e.height
    angle := mergeOpt p.angle e.angle
    text := mergeOpt p.text e.text
    strokeColor := mergeOpt p.strokeColor e.strokeColor
    backgroundColor := mergeOpt p.backgroundColor e.backgroundColor
    strokeStyle := mergeOpt p.strokeStyle e.strokeStyle
    fillStyle := mergeOpt p.fillStyle e.fillStyle
    strokeWidth := mergeOpt p.strokeWidth e.strokeWidth
    opacity := mergeOpt p.opacity e.opacity
    roughness := mergeOpt p.roughness e.roughness
    fontSize := mergeOpt p.fontSize e.fontSize
    fontFamily := mergeOpt p.fontFamily e.fontFamily
    textAlign := mergeOpt p.textAlign e.textAlign
    verticalAlign := mergeOpt p.verticalAlign e.verticalAlign
    startArrowhead := mergeArrowhead p.startArrowhead e.startArrowhead
    endArrowhead := mergeArrowhead p.endArrowhead e.endArrowhead }

/-- Ids present in a scene (elements without an id contribute nothing). -/
def sceneIds (s : List Element) : List String := s.filterMap (fun e => e.id)

/-- The `byId` map of the update_elements handler is built with `set`, so a
later patch for the same id overwrites an earlier one: lookup returns the
last matching patch. -/
def lastPatchFor (updates : List Update) (oid : Option String) : Option Props :=
  match oid with
  | Option.none => Option.none
  | some i => (updates.reverse.find? (fun u => u.id == i)).map (fun u => u.props)

/-- The update_elements handler (post-validation).  `existingIds` is the
set of scene ids; if any requested id is absent the whole batch fails with
the list of absent ids and the scene is untouched; otherwise every element
with a matching patch receives the shallow merge and the handler reports
the number of updates. -/
def updateElements (scene : List Element) (updates : List Update) :
    Except (List String) ℕ × List Element :=
  let notFound :=
    (updates.filter (fun u => !((scene.map (fun e => e.id)).contains (some u.id)))).map
      (fun u => u.id)
  if notFound ≠ [] then (Except.error notFound, scene)
  else
    (Except.ok updates.length,
     scene.map (fun e =>
       match lastPatchFor updates e.id with
       | Option.none => e
       | some p => applyPatch e p))

/-- JS truthiness check `!!e.id` used by set_scene and add_elements: an
absent id and the empty string both fail. -/
def hasId (e : Element) : Bool :=
  match e.id with
  | some s => s != ""
  | Option.none => false

/-- The set_scene handler (post-validation).  Rejects, with their indices,
elements whose id is missing (or empty, by JS truthiness); otherwise the
scene is replaced wholesale by the supplied list (omitted list clears). -/
def setScene (scene : List Element) (elements : Option (List Element)) :
    Except (List ℕ) Unit × List Element :=
  let els := elements.getD []
  let missing := els.enum.filterMap (fun p => if hasId p.2 then Option.none else some p.1)
  if missing ≠ [] then (Except.error missing, scene)
  else (Except.ok (), els)

/-- Default alignment filled in when add_elements autosizes a labelled
container. -/
def padLabel (l : Label) : Label :=
  { l with
    textAlign := some (l.textAlign.getD TextAlign.center)
    verticalAlign := some (l.verticalAlign.getD VerticalAlign.middle) }

/-- The autosizing step of add_elements.  `measure` stands for
measureLabelSize, whose canvas text metrics depend on the browser
environment; the claims below hold for every measure function.  For a
rectangle/ellipse/diamond with a label, width and height are grown to
`max(old, ceil(measured) + 2 * padding, minimum)` with padding 12 and
minima 120 x 48, and the label gets default center/middle alignment. -/
noncomputable def autosize (measure : Label → ℝ × ℝ) (e : Element) : Element :=
  if e.type = ElemType.rectangle ∨ e.type = ElemType.ellipse ∨ e.type = ElemType.diamond then
    match e.label with
    | some l =>
        let wh := measure l
        { e with
          width := some (max (max (e.width.getD 0) (((⌈wh.1⌉ : ℤ) : ℝ) + 12 * 2)) 120)
          height := some (max (max (e.height.getD 0) (((⌈wh.2⌉ : ℤ) : ℝ) + 12 * 2)) 48)
          label := some (padLabel l) }
    | Option.none => e
  else e

/-- The add_elements handler (post-validation).  Rejects, with their
indices, elements whose id is missing or empty; otherwise autosizes
labelled containers, drops every existing element whose id occurs in the
batch (a JS Set membership test on the possibly-undefined ids) and appends
the batch. -/
noncomputable def addElements (measure : Label → ℝ × ℝ) (scene : List Element)
    (elements : List Element) : Except (List ℕ) Unit × List Element :=
  let missing := elements.enum.filterMap (fun p => if hasId p.2 then Option.none else some p.1)
  if missing ≠ [] then (Except.error missing, scene)
  else
    let sized := elements.map (autosize measure)
    let ids := sized.map (fun e => e.id)
    let base := scene.filter (fun e => !(ids.contains e.id))
    (Except.ok (), base ++ sized)

/-! Geometry helpers: edge points for rectangle / ellipse / diamond. -/

structure XY where
  x : ℝ
  y : ℝ

noncomputable def centerPoint (el : Element) : XY :=
  ⟨el.x.getD 0 + el.width.getD 0 / 2, el.y.getD 0 + el.height.getD 0 / 2⟩

/-- unitVec: direction from p to q scaled by `Math.hypot(dx, dy) || 1`
(the JS fallback replaces a zero length by 1, leaving the zero vector). -/
noncomputable def unitVec (p q : XY) : XY :=
  let dx := q.x - p.x
  let dy := q.y - p.y
  let L := if Real.sqrt (dx ^ 2 + dy ^ 2) = 0 then 1 else Real.sqrt (dx ^ 2 + dy ^ 2)
  ⟨dx / L, dy / L⟩

/-- rectEdge: `u = min(ux, uy)` where `ux = rx / |d.x|` with division by
zero treated as positive infinity, likewise `uy`.  The infinite values are
written out as a case split, exploiting `min(a, inf) = a`.  When both
components of `d` vanish (target equal to the center) the JS expression is
`center + 0 * inf`, a NaN unrepresentable in ℝ; that unreachable-in-claims
branch returns the center. -/
noncomputable def rectEdge (el : Element) (toward : XY) : XY :=
  let cx := el.x.getD 0 + el.width.getD 0 / 2
  let cy := el.y.getD 0 + el.height.getD 0 / 2
  let rx := el.width.getD 0 / 2
  let ry := el.height.getD 0 / 2
  let d := unitVec ⟨cx, cy⟩ toward
  let u :=
    if d.x = 0 then (if d.y = 0 then 0 else ry / |d.y|)
    else if d.y = 0 then rx / |d.x|
    else min (rx / |d.x|) (ry / |d.y|)
  ⟨cx + d.x * u, cy + d.y * u⟩

/-- ellipseEdge: radii clamped below by 1e-6, then
`t = 1 / sqrt(dx^2 / rx^2 + dy^2 / ry^2)`. -/
noncomputable def ellipseEdge (el : Element) (toward : XY) : XY :=
  let cx := el.x.getD 0 + el.width.getD 0 / 2
  let cy := el.y.getD 0 + el.height.getD 0 / 2
  let rx := max 1e-6 (el.width.getD 0 / 2)
  let ry := max 1e-6 (el.height.getD 0 / 2)
  let d := unitVec ⟨cx, cy⟩ toward
  let t := 1 / Real.sqrt (d.x ^ 2 / rx ^ 2 + d.y ^ 2 / ry ^ 2)
  ⟨cx + d.x * t, cy + d.y * t⟩

noncomputable def cross (a b : XY) : ℝ := a.x * b.y - a.y * b.x

noncomputable def sub (a b : XY) : XY := ⟨a.x - b.x, a.y - b.y⟩

/-- raySegHit: intersection of the ray `origin + u * dir` (u ≥ 0) with the
segment from a to b, rejecting near-parallel configurations. -/
noncomputable def raySegHit (origin dir a b : XY) : Option XY :=
  let r := sub b a
  let denom := cross dir r
  if |denom| < 1e-8 then Option.none
  else
    let ap := sub a origin
    let u := cross ap r / denom
    let t := cross ap dir / denom
    if u < 0 ∨ t < 0 ∨ t > 1 then Option.none
    else some ⟨origin.x + dir.x * u, origin.y + dir.y * u⟩

noncomputable def dist (p q : XY) : ℝ := Real.sqrt ((p.x - q.x) ^ 2 + (p.y - q.y) ^ 2)

/-- diamondEdge: cast a ray from the center toward the target against the
four midpoint-to-midpoint segments and keep the nearest hit (the JS loop
starts from bestDist = Infinity, so the first hit is always kept and later
hits only replace it when strictly nearer); falls back to the center. -/
noncomputable def diamondEdge (el : Element) (toward : XY) : XY :=
  let x := el.x.getD 0
  let y := el.y.getD 0
  let w := el.width.getD 0
  let h := el.height.getD 0
  let cx := x + w / 2
  let cy := y + h / 2
  let top : XY := ⟨cx, y⟩
  let rightPt : XY := ⟨x + w, cy⟩
  let bottom : XY := ⟨cx, y + h⟩
  let leftPt : XY := ⟨x, cy⟩
  let segs : List (XY × XY) := [(top, rightPt), (rightPt, bottom), (bottom, leftPt), (leftPt, top)]
  let origin : XY := ⟨cx, cy⟩
  let d := unitVec origin toward
  let best := segs.foldl
    (fun acc sg =>
      match raySegHit origin d sg.1 sg.2 with
      | Option.none => acc
      | some pt =>
          match acc with
          | Option.none => some pt
          | some bp => if dist pt origin < dist bp origin then some pt else acc)
    Option.none
  best.getD origin

/-- edgePoint dispatch: ellipse and diamond get their own formulas, every
other type falls back to the rectangle formula. -/
noncomputable def edgePoint (el : Element) (toward : XY) : XY :=
  match el.type with
  | ElemType.ellipse => ellipseEdge el toward
  | ElemType.diamond => diamondEdge el toward
  | _ => rectEdge el toward

/-! connect_elements. -/

/-- Style payload of a connection (StylePropsSchema extended with the two
arrowhead fields). -/
structure Style where
  strokeColor : Option String := Option.none
  backgroundColor : Option String := Option.none
  strokeStyle : Option StrokeStyle := Option.none
  fillStyle : Option FillStyle := Option.none
  strokeWidth : Option ℝ := Option.none
  angle : Option ℝ := Option.none
  opacity : Option ℝ := Option.none
  roughness : Option ℝ := Option.none
  startArrowhead : Option Arrowhead := Option.none
  endArrowhead : Option Arrowhead := Option.none

structure Connection where
  fromId : String
  toId : String
  label : Option Label := Option.none
  style : Option Style := Option.none

structure ConnFailure where
  fromId : String
  toId : String
  reason : String
  deriving DecidableEq, Repr

/-- Result envelope of connect_elements together with the new scene. -/
structure ConnectResult where
  created : List String
  failed : List ConnFailure
  scene : List Element

def findById (s : List Element) (i : String) : Option Element :=
  s.find? (fun e => e.id == some i)

/-- Object.assign of a connection style onto the arrow skeleton, after the
"none" arrowhead normalization (present-but-undefined keys clobber). -/
def applyStyle (a : Element) (s : Style) : Element :=
  { a with
    strokeColor := mergeOpt s.strokeColor a.strokeColor
    backgroundColor := mergeOpt s.backgroundColor a.backgroundColor
    strokeStyle := mergeOpt s.strokeStyle a.strokeStyle
    fillStyle := mergeOpt s.fillStyle a.fillStyle
    strokeWidth := mergeOpt s.strokeWidth a.strokeWidth
    angle := mergeOpt s.angle a.angle
    opacity := mergeOpt s.opacity a.opacity
    roughness := mergeOpt s.roughness a.roughness
    startArrowhead := mergeArrowhead s.startArrowhead a.startArrowhead
    endArrowhead := mergeArrowhead s.endArrowhead a.endArrowhead }

/-- The arrow skeleton built for one valid connection: anchored at the
start edge point, sized by the vector to the end edge point, bound to the
two ids, default end arrowhead "arrow", then label and style applied.
Note the skeleton gets no id. -/
noncomputable def mkArrow (fromEl toEl : Element) (c : Connection) : Element :=
  let cFrom := centerPoint fromEl
  let cTo := centerPoint toEl
  let start := edgePoint fromEl cTo
  let stop := edgePoint toEl cFrom
  let arrow : Element :=
    { type := ElemType.arrow
      x := some start.x
      y := some start.y
      width := some (stop.x - start.x)
      height := some (stop.y - start.y)
      startBind := some c.fromId
      endBind := some c.toId
      endArrowhead := some Arrowhead.arrow }
  let arrow :=
    match c.label with
    | some l => { arrow with label := some l }
    | Option.none => arrow
  match c.style with
  | some s => applyStyle arrow s
  | Option.none => arrow

/-- Loop body of connect_elements: a pair with a missing endpoint extends
the failure list (fromId checked first), a valid pair extends the arrow
list. -/
noncomputable def connStep (scene : List Element) (acc : List ConnFailure × List Element)
    (p : Connection) : List ConnFailure × List Element :=
  match findById scene p.fromId, findById scene p.toId with
  | some fe, some te => (acc.1, acc.2 ++ [mkArrow fe te p])
  | Option.none, _ => (acc.1 ++ [⟨p.fromId, p.toId, "fromId not found"⟩], acc.2)
  | some _, Option.none => (acc.1 ++ [⟨p.fromId, p.toId, "toId not found"⟩], acc.2)

/-- The connect_elements handler (post-validation).  Id lookups run
against the scene at entry; arrows are appended at the end.  The handler
never adds anything to `created`. -/
noncomputable def connectElements (scene : List Element) (conns : List Connection) :
    ConnectResult :=
  let r := conns.foldl (connStep scene) ([], [])
  { created := [], failed := r.1, scene := scene ++ r.2 }

/-! layout_grid. -/

/-- Grid slot for index i: `row = floor(i / cols)`, `col = i % cols`,
written with the JS remainder `i - cols * floor(i / cols)` (for
nonnegative i and positive cols the JS `%` truncation agrees with the
floor). -/
noncomputable def gridPos (origin : ℝ × ℝ) (cols gapX gapY : ℝ) (i : ℕ) : ℝ × ℝ :=
  let row : ℤ := ⌊(i : ℝ) / cols⌋
  let col : ℝ := (i : ℝ) - cols * ((⌊(i : ℝ) / cols⌋ : ℤ) : ℝ)
  (origin.1 + col * gapX, origin.2 + (row : ℝ) * gapY)

/-- The layout_grid handler (post-validation).  Defaults gapX/gapY to
200/120 when absent (`Number.isFinite` fails only for the absent value
once numbers are embedded as reals); errors when every requested id is
missing; otherwise positions the found ids (in request order) on the grid,
a later duplicate occurrence overwriting an earlier slot as with JS `Map.set`,
and reports the found and missing ids. -/
noncomputable def layoutGrid (scene : List Element) (ids : List String) (origin : ℝ × ℝ)
    (cols : ℝ) (gapXOpt gapYOpt : Option ℝ) :
    Except (List String) (List String × List String) × List Element :=
  let gapX := gapXOpt.getD 200
  let gapY := gapYOpt.getD 120
  let existing := scene.map (fun e => e.id)
  let notFound := ids.filter (fun i => !(existing.contains (some i)))
  if notFound.length = ids.length then (Except.error ids, scene)
  else
    let targetIds := ids.filter (fun i => existing.contains (some i))
    let pairs := targetIds.enum.map (fun p => (p.2, gridPos origin cols gapX gapY p.1))
    let posFor : Option String → Option (ℝ × ℝ) := fun oid =>
      match oid with
      | some i =>
          (pairs.reverse.find? (fun q : String × ℝ × ℝ => q.1 == i)).map
            (fun q : String × ℝ × ℝ => q.2)
      | Option.none => Option.none
    (Except.ok (targetIds, notFound),
     scene.map (fun e =>
       match posFor e.id with
       | some pos => { e with x := some pos.1, y := some pos.2 }
       | Option.none => e))

/-! set_label. -/

inductive LabelErr
  | notFound
  | unsupported (t : ElemType)
  deriving DecidableEq, Repr

/-- The set_label handler (post-validation).  Finds the first element with
the id; errors when absent; errors with the target type when it is not
rectangle/ellipse/diamond/arrow; otherwise attaches the label to every
element carrying that id. -/
def setLabel (scene : List Element) (i : String) (lbl : Label) :
    Except LabelErr Unit × List Element :=
  match findById scene i with
  | Option.none => (Except.error LabelErr.notFound, scene)
  | some target =>
      if target.type = ElemType.rectangle ∨ target.type = ElemType.ellipse ∨
          target.type = ElemType.diamond ∨ target.type = ElemType.arrow then
        (Except.ok (),
         scene.map (fun e => if e.id == some i then { e with label := some lbl } else e))
      else (Except.error (LabelErr.unsupported target.type), scene)

/-! Definitions written from the spec text, for the refinement claims about
the geometry formulas.  They follow the spec words, to be compared with the
embedded source functions above. -/

/-- Division with a zero divisor treated as infinity, encoded in
`Option ℝ` with `Option.none` standing for the infinite value. -/
noncomputable def divInf (a b : ℝ) : Option ℝ :=
  if b = 0 then Option.none else some (a / |b|)

/-- Minimum extended by an infinite element (`Option.none`). -/
def minInf : Option ℝ → Option ℝ → Option ℝ
  | Option.none, v => v
  | some a, Option.none => some a
  | some a, some b => some (min a b)

/-- Spec formula for the rectangle boundary point: direction d from center
to target, `t = min(halfWidth / |d.x|, halfHeight / |d.y|)` with division
by zero treated as infinity, result `center + d * t` (none when t stays
infinite). -/
noncomputable def rectEdgeSpec (el : Element) (toward : XY) : Option XY :=
  let c := centerPoint el
  let d := unitVec c toward
  match minInf (divInf (el.width.getD 0 / 2) d.x) (divInf (el.height.getD 0 / 2) d.y) with
  | some t => some ⟨c.x + d.x * t, c.y + d.y * t⟩
  | Option.none => Option.none

/-- Spec formula for the ellipse boundary point with the radii taken
directly as half the width and height (no clamping):
`t = 1 / sqrt(d.x^2 / rx^2 + d.y^2 / ry^2)`. -/
noncomputable def ellipseEdgeSpec (el : Element) (toward : XY) : XY :=
  let c := centerPoint el
  let rx := el.width.getD 0 / 2
  let ry := el.height.getD 0 / 2
  let d := unitVec c toward
  let t := 1 / Real.sqrt (d.x ^ 2 / rx ^ 2 + d.y ^ 2 / ry ^ 2)
  ⟨c.x + d.x * t, c.y + d.y * t⟩

/-- Per-connection failure entry of connect_elements (fromId checked
first), as a standalone function of the scene at entry. -/
def connFail (scene : List Element) (p : Connection) : Option ConnFailure :=
  match findById scene p.fromId, findById scene p.toId with
  | some _, some _ => Option.none
  | Option.none, _ => some ⟨p.fromId, p.toId, "fromId not found"⟩
  | some _, Option.none => some ⟨p.fromId, p.toId, "toId not found"⟩

/-- Per-connection arrow of connect_elements, as a standalone function of
the scene at entry. -/
noncomputable def connArrow (scene : List Element) (p : Connection) : Option Element :=
  match findById scene p.fromId, findById scene p.toId with
  | some fe, some te => some (mkArrow fe te p)
  | _, _ => Option.none

/-- Grid slot of layout_grid stated over natural row/column arithmetic:
index k lands at column k mod cols and row k div cols. -/
noncomputable def gridSlot (origin : ℝ × ℝ) (cols : ℕ) (gapX gapY : ℝ) (k : ℕ) : ℝ × ℝ :=
  (origin.1 + ((k % cols : ℕ) : ℝ) * gapX, origin.2 + ((k / cols : ℕ) : ℝ) * gapY)

/-! Concrete fixtures used by witnesses and counterexamples. -/

def elA : Element := { id := some "a", type := ElemType.rectangle, x := some 0, y := some 0 }

def elA2 : Element := { id := some "a", type := ElemType.ellipse, x := some 10, y := some 10 }

def elB : Element :=
  { id := some "b", type := ElemType.rectangle, x := some 100, y := some 0,
    width := some 10, height := some 10 }

def elC : Element := { id := some "c", type := ElemType.diamond, x := some 50, y := some 50 }

def elLine : Element := { id := some "l", type := ElemType.line, x := some 0, y := some 0 }

def lblW : Label := { text := "hi" }

/-- A measure function standing in for the canvas text metrics. -/
def mZero : Label → ℝ × ℝ := fun _ => (0, 0)

def patchX5 : Props := { x := some 5 }

def connAB : Connection := { fromId := "a", toId := "b" }

def connAGhost : Connection := { fromId := "a", toId := "ghost" }

def patchNone : Props :=
  { startArrowhead := some Arrowhead.noneStr, endArrowhead := some Arrowhead.noneStr }

def styleNone : Style :=
  { startArrowhead := some Arrowhead.noneStr, endArrowhead := some Arrowhead.noneStr }

def elArrowLit : Element :=
  { id := some "w", type := ElemType.arrow, x := some 0, y := some 0,
    startArrowhead := some Arrowhead.arrow, endArrowhead := some Arrowhead.bar }

def elC2 : Element := { id := some "c", type := ElemType.text, x := some 1, y := some 2 }

def elGrid : Element :=
  { id := some "g", type := ElemType.rectangle, x := some 7, y := some 8 }

/-- Rectangle centered at (100,100) with width 200 and height 100. -/
def rectW : Element :=
  { id := some "r", type := ElemType.rectangle, x := some 0, y := some 50,
    width := some 200, height := some 100 }

/-- Ellipse centered at (0,0) with rx = 50 and ry = 25. -/
def ellW : Element :=
  { id := some "e", type := ElemType.ellipse, x := some (-50), y := some (-25),
    width := some 100, height := some 50 }

/-- Ellipse centered at (0,0) with a tiny nonzero width 1e-9, below the
radius clamp. -/
def ellTiny : Element :=
  { id := some "t", type := ElemType.ellipse, x := some (-(5e-10)), y := some (-25),
    width := some 1e-9, height := some 50 }

/-- Rectangle with zero width but nonzero height. -/
def rectZeroW : Element :=
  { id := some "z", type := ElemType.rectangle, x := some 0, y := some 0,
    width := some 0, height := some 100 }

/-- Shape with both dimensions zero, centered at (3,4). -/
def shapeZZ : Element :=
  { id := some "q", type := ElemType.rectangle, x := some 3, y := some 4,
    width := some 0, height := some 0 }

/-! Theorems. -/

/-- Claim C10: whenever an update_elements patch or a connect_elements
style carries the arrowhead value "none", the merged element stores no
value at all for that field (undefined), never the literal "none"; this
also holds for the arrow built by connect_elements from a style. -/
theorem arrowhead_none_stored_as_absent (e : Element) (p : Props) (a : Element) (s : Style) :
    (p.startArrowhead = some Arrowhead.noneStr → (applyPatch e p).startArrowhead = Option.none)
    ∧ (p.endArrowhead = some Arrowhead.noneStr → (applyPatch e p).endArrowhead = Option.none)
    ∧ (s.startArrowhead = some Arrowhead.noneStr → (applyStyle a s).startArrowhead = Option.none)
    ∧ (s.endArrowhead = some Arrowhead.noneStr → (applyStyle a s).endArrowhead = Option.none)
    ∧ (∀ fe te : Element, ∀ c : Connection, c.style = some s →
        (s.startArrowhead = some Arrowhead.noneStr →
          (mkArrow fe te c).startArrowhead = Option.none)
        ∧ (s.endArrowhead = some Arrowhead.noneStr →
          (mkArrow fe te c).endArrowhead = Option.none)) := by
  refine ⟨?_, ?_, ?_, ?_, ?_⟩
  · intro h; simp [applyPatch, mergeArrowhead, h]
  · intro h; simp [applyPatch, mergeArrowhead, h]
  · intro h; simp [applyStyle, mergeArrowhead, h]
  · intro h; simp [applyStyle, mergeArrowhead, h]
  · intro fe te c hc
    constructor
    · intro h
      cases hl : c.label <;> simp [mkArrow, hc, hl, applyStyle, mergeArrowhead, h]
    · intro h
      cases hl : c.label <;> simp [mkArrow, hc, hl, applyStyle, mergeArrowhead, h]




/-- Claim C10 witness: the normalization evaluated on a concrete arrow
element whose stored arrowheads were set. -/
theorem arrowhead_none_stored_as_absent_witness :
    (applyPatch elArrowLit patchNone).startArrowhead = Option.none
    ∧ (applyPatch elArrowLit patchNone).endArrowhead = Option.none
    ∧ (applyStyle elArrowLit styleNone).startArrowhead = Option.none
    ∧ (applyStyle elArrowLit styleNone).endArrowhead = Option.none := by
  obtain ⟨h1, h2, h3, h4, _⟩ :=
    arrowhead_none_stored_as_absent elArrowLit patchNone elArrowLit styleNone
  exact ⟨h1 rfl, h2 rfl, h3 rfl, h4 rfl⟩

/-- Claim C6 counterexample: set_scene accepts two elements that share the
id "a" and stores both, instead of failing with a validation error and
leaving the scene unchanged. -/
theorem set_scene_accepts_colliding_ids :
    setScene [] (some [elA, elA2]) = (Except.ok (), [elA, elA2])
    ∧ ¬ (sceneIds [elA, elA2]).Nodup := by
  refine ⟨rfl, ?_⟩
  show ¬ ([elA, elA2].filterMap (fun e => e.id)).Nodup
  have : [elA, elA2].filterMap (fun e => e.id) = ["a", "a"] := rfl
  rw [this]
  decide

/-- The missing-id index list computed by set_scene and add_elements is
empty exactly when every supplied element passes the truthy-id check. -/
theorem missing_indices_eq_nil (els : List Element) :
    (els.enum.filterMap (fun p => if hasId p.2 then Option.none else some p.1)) = []
      ↔ els.all hasId = true := by
  rw [List.filterMap_eq_nil_iff, List.all_eq_true]
  constructor
  · intro h e he
    obtain ⟨i, hi⟩ := List.mem_iff_getElem?.mp he
    have hmem : (i, e) ∈ els.enum := List.mk_mem_enum_iff_getElem?.mpr hi
    have := h (i, e) hmem
    by_contra hfalse
    simp [hfalse] at this
  · intro h p hp
    have : hasId p.2 = true := h p.2 (by
      have := List.mk_mem_enum_iff_getElem?.mp hp
      exact List.getElem?_mem this)
    simp [this]

/-- Claim C6 amended: set_scene returns a validation error, leaving the
scene unchanged, exactly when some supplied element lacks an id (or has an
empty-string id, by JS truthiness); otherwise — including when supplied
ids collide — the scene afterward consists exactly of the supplied
elements. -/
theorem set_scene_validates_only_missing_ids (scene : List Element)
    (elements : Option (List Element)) :
    (((elements.getD []).all hasId) = true →
      setScene scene elements = (Except.ok (), elements.getD []))
    ∧ (((elements.getD []).all hasId) = false →
      (setScene scene elements).2 = scene ∧
        ∃ l, l ≠ [] ∧ (setScene scene elements).1 = Except.error l) := by
  constructor
  · intro h
    unfold setScene
    rw [if_neg]
    simp [(missing_indices_eq_nil (elements.getD [])).mpr h]
  · intro h
    unfold setScene
    rw [if_pos]
    · refine ⟨rfl, _, ?_, rfl⟩
      intro hnil
      rw [missing_indices_eq_nil (elements.getD [])] at hnil
      simp [hnil] at h
    · intro hnil
      rw [missing_indices_eq_nil (elements.getD [])] at hnil
      simp [hnil] at h

/-- Claim C6 witness: a valid replacement evaluated concretely. -/
theorem set_scene_validates_only_missing_ids_witness :
    setScene [elB] (some [elA]) = (Except.ok (), [elA]) :=
  (set_scene_validates_only_missing_ids [elB] (some [elA])).1 rfl

/-- Claim C8 counterexample: set_label on an existing line element returns
the unsupported-type error and leaves the scene unchanged, although the
claim lists line among the container-capable kinds. -/
theorem set_label_rejects_line :
    setLabel [elLine] "l" lblW = (Except.error (LabelErr.unsupported ElemType.line), [elLine]) :=
  rfl

/-- Claim C8 amended: for an id naming an existing element, set_label
succeeds and attaches the label exactly when the element kind is
rectangle, ellipse, diamond or arrow; every other kind — including line —
gets an unsupported-type error with the scene unchanged; a missing id gets
the not-found error. -/
theorem set_label_kinds (scene : List Element) (i : String) (lbl : Label) :
    (findById scene i = Option.none →
      setLabel scene i lbl = (Except.error LabelErr.notFound, scene))
    ∧ (∀ target, findById scene i = some target →
        ((target.type = ElemType.rectangle ∨ target.type = ElemType.ellipse ∨
          target.type = ElemType.diamond ∨ target.type = ElemType.arrow) →
            setLabel scene i lbl = (Except.ok (),
              scene.map (fun e => if e.id == some i then { e with label := some lbl } else e)))
        ∧ ((target.type = ElemType.line ∨ target.type = ElemType.text ∨
            target.type = ElemType.image ∨ target.type = ElemType.frame ∨
            target.type = ElemType.magicframe) →
              setLabel scene i lbl = (Except.error (LabelErr.unsupported target.type), scene))) := by
  constructor
  · intro h
    unfold setLabel
    rw [h]
  · intro target h
    constructor
    · intro hk
      unfold setLabel
      rw [h]
      dsimp only
      rw [if_pos hk]
    · intro hk
      unfold setLabel
      rw [h]
      dsimp only
      rw [if_neg]
      rcases hk with h1 | h1 | h1 | h1 | h1 <;> rw [h1] <;> intro hc <;>
        rcases hc with h2 | h2 | h2 | h2 <;> exact absurd h2 (by decide)

/-- Claim C8 witness: attaching a label to a concrete rectangle succeeds
and stores the label. -/
theorem set_label_kinds_witness :
    setLabel [elA] "a" lblW = (Except.ok (), [{ elA with label := some lblW }]) := by
  have h := ((set_label_kinds [elA] "a" lblW).2 elA rfl).1 (Or.inl rfl)
  exact h.trans (by rfl)

/-- Claim C1 counterexample: with scene consisting of elements "a" and
"b", updating "a" together with the absent id "ghost" fails the whole
batch: the handler returns the error listing "ghost" and no element is
touched — element "a" does not receive its patch. -/
theorem update_elements_fails_whole_batch :
    updateElements [elA, elB] [⟨"a", patchX5⟩, ⟨"ghost", patchX5⟩]
      = (Except.error ["ghost"], [elA, elB]) := rfl

/-- Claim C1 amended: update_elements is all-or-nothing.  When every
requested id exists, each matched element receives its shallow-merged
patch (a later patch for the same id replacing an earlier one) and every
other element is unchanged; when some requested id is absent, the handler
returns an error carrying a nonempty list of absent requested ids and the
scene is left entirely unchanged. -/
theorem update_elements_all_or_nothing (scene : List Element) (updates : List Update) :
    ((∀ u ∈ updates, some u.id ∈ scene.map (fun e => e.id)) →
      updateElements scene updates =
        (Except.ok updates.length,
         scene.map (fun e =>
           match lastPatchFor updates e.id with
           | Option.none => e
           | some p => applyPatch e p)))
    ∧ ((∃ u ∈ updates, ¬ some u.id ∈ scene.map (fun e => e.id)) →
      (updateElements scene updates).2 = scene ∧
        ∃ l, l ≠ [] ∧ (updateElements scene updates).1 = Except.error l ∧
          ∀ i ∈ l, (¬ some i ∈ scene.map (fun e => e.id)) ∧ i ∈ updates.map (fun u => u.id)) := by
  constructor
  · intro h
    have hfil : updates.filter
        (fun u => !((scene.map (fun e => e.id)).contains (some u.id))) = [] := by
      rw [List.filter_eq_nil_iff]
      intro u hu
      simp only [Bool.not_eq_true, Bool.not_eq_false]
      simpa using h u hu
    unfold updateElements
    rw [hfil]
    simp
  · rintro ⟨u, hu, habs⟩
    have hq : (fun u : Update => !((scene.map (fun e => e.id)).contains (some u.id))) u = true := by
      simp only [Bool.not_eq_true']
      by_contra hc
      simp only [Bool.not_eq_false] at hc
      exact habs (List.elem_iff.mp hc)
    have hne : updates.filter
        (fun u => !((scene.map (fun e => e.id)).contains (some u.id))) ≠ [] :=
      List.ne_nil_of_mem (List.mem_filter.mpr ⟨hu, hq⟩)
    have hmapne : (updates.filter
        (fun u => !((scene.map (fun e => e.id)).contains (some u.id)))).map
          (fun u => u.id) ≠ [] := by
      simpa using hne
    unfold updateElements
    rw [if_pos hmapne]
    refine ⟨rfl, _, hmapne, rfl, ?_⟩
    intro i hi
    obtain ⟨v, hv, hvi⟩ := List.mem_map.mp hi
    obtain ⟨hvmem, hvq⟩ := List.mem_filter.mp hv
    constructor
    · intro hcon
      rw [← hvi] at hcon
      obtain ⟨e, he, heq⟩ := List.mem_map.mp hcon
      simp at hvq
      exact hvq e he heq
    · exact hvi ▸ List.mem_map_of_mem (fun u => u.id) hvmem

/-- Claim C1 witness: a batch whose ids all exist applies the patch (the
x coordinate of element "a" becomes 5) and reports the update count. -/
theorem update_elements_all_or_nothing_witness :
    updateElements [elA, elB] [⟨"a", patchX5⟩]
      = (Except.ok 1, [{ elA with x := some 5 }, elB]) := by
  have h := (update_elements_all_or_nothing [elA, elB] [⟨"a", patchX5⟩]).1 (by decide)
  exact h.trans (by rfl)

/-- Claim C2 counterexample: a single valid connection appends one arrow
to the scene (length grows from 2 to 3) yet `created` comes back empty —
the handler never reports the created arrows (the arrow skeletons carry no
id at all), contradicting the claim that created contains the id of each
arrow created for a valid pair. -/
theorem connect_elements_created_always_empty :
    (connectElements [elA, elB] [connAB]).created = []
    ∧ (connectElements [elA, elB] [connAB]).failed = []
    ∧ (connectElements [elA, elB] [connAB]).scene.length = 3 :=
  ⟨rfl, rfl, rfl⟩

/-- The connect_elements fold splits into the failure entries and the
created arrows of the individual connections. -/
theorem connStep_foldl (scene : List Element) (conns : List Connection)
    (f0 : List ConnFailure) (a0 : List Element) :
    conns.foldl (connStep scene) (f0, a0)
      = (f0 ++ conns.filterMap (connFail scene), a0 ++ conns.filterMap (connArrow scene)) := by
  induction conns generalizing f0 a0 with
  | nil => simp
  | cons p tl ih =>
    rw [List.foldl_cons, List.filterMap_cons, List.filterMap_cons]
    rcases hf : findById scene p.fromId with _ | fe <;>
      rcases ht : findById scene p.toId with _ | te
    · have h1 : connStep scene (f0, a0) p = (f0 ++ [⟨p.fromId, p.toId, "fromId not found"⟩], a0) := by
        unfold connStep; rw [hf, ht]
      have h2 : connFail scene p = some ⟨p.fromId, p.toId, "fromId not found"⟩ := by
        unfold connFail; rw [hf, ht]
      have h3 : connArrow scene p = Option.none := by
        unfold connArrow; rw [hf, ht]
      rw [h1, ih, h2, h3]
      simp
    · have h1 : connStep scene (f0, a0) p = (f0 ++ [⟨p.fromId, p.toId, "fromId not found"⟩], a0) := by
        unfold connStep; rw [hf, ht]
      have h2 : connFail scene p = some ⟨p.fromId, p.toId, "fromId not found"⟩ := by
        unfold connFail; rw [hf, ht]
      have h3 : connArrow scene p = Option.none := by
        unfold connArrow; rw [hf, ht]
      rw [h1, ih, h2, h3]
      simp
    · have h1 : connStep scene (f0, a0) p = (f0 ++ [⟨p.fromId, p.toId, "toId not found"⟩], a0) := by
        unfold connStep; rw [hf, ht]
      have h2 : connFail scene p = some ⟨p.fromId, p.toId, "toId not found"⟩ := by
        unfold connFail; rw [hf, ht]
      have h3 : connArrow scene p = Option.none := by
        unfold connArrow; rw [hf, ht]
      rw [h1, ih, h2, h3]
      simp
    · have h1 : connStep scene (f0, a0) p = (f0, a0 ++ [mkArrow fe te p]) := by
        unfold connStep; rw [hf, ht]
      have h2 : connFail scene p = Option.none := by
        unfold connFail; rw [hf, ht]
      have h3 : connArrow scene p = some (mkArrow fe te p) := by
        unfold connArrow; rw [hf, ht]
      rw [h1, ih, h2, h3]
      simp

/-- Claim C2 amended: connect_elements never throws; it returns success
with a failure entry (carrying a reason) for every pair with a missing
endpoint, and appends exactly one arrow per valid pair, bound by
start/end to the two ids, with kind arrow and no id — but `created` is
always the empty list, so the created arrows are not reported. -/
theorem connect_elements_partial_failure (scene : List Element) (conns : List Connection) :
    (connectElements scene conns).created = []
    ∧ (connectElements scene conns).failed = conns.filterMap (connFail scene)
    ∧ (connectElements scene conns).scene = scene ++ conns.filterMap (connArrow scene)
    ∧ (∀ p : Connection, connFail scene p = Option.none ↔ (connArrow scene p).isSome)
    ∧ (∀ p : Connection, ∀ fe te : Element,
        findById scene p.fromId = some fe → findById scene p.toId = some te →
        connArrow scene p = some (mkArrow fe te p)
        ∧ (mkArrow fe te p).type = ElemType.arrow
        ∧ (mkArrow fe te p).startBind = some p.fromId
        ∧ (mkArrow fe te p).endBind = some p.toId
        ∧ (mkArrow fe te p).id = Option.none) := by
  refine ⟨rfl, ?_, ?_, ?_, ?_⟩
  · show (conns.foldl (connStep scene) ([], [])).1 = _
    rw [connStep_foldl]
    simp
  · show scene ++ (conns.foldl (connStep scene) ([], [])).2 = _
    rw [connStep_foldl]
    simp
  · intro p
    unfold connFail connArrow
    rcases hf : findById scene p.fromId with _ | fe <;>
      rcases ht : findById scene p.toId with _ | te <;> simp
  · intro p fe te hf ht
    refine ⟨by unfold connArrow; rw [hf, ht], ?_, ?_, ?_, ?_⟩ <;>
      · unfold mkArrow
        rcases p.label with _ | l <;> rcases p.style with _ | s <;> simp [applyStyle]

/-- Claim C2 witness: two connections, one valid and one with a missing
endpoint — one failure entry with a reason, one arrow appended, bound to
the two ids, and created still empty. -/
theorem connect_elements_partial_failure_witness :
    (connectElements [elA, elB] [connAB, connAGhost]).created = []
    ∧ (connectElements [elA, elB] [connAB, connAGhost]).failed
      = [⟨"a", "ghost", "toId not found"⟩]
    ∧ (connectElements [elA, elB] [connAB, connAGhost]).scene.length = 3
    ∧ (mkArrow elA elB connAB).startBind = some "a"
    ∧ (mkArrow elA elB connAB).endBind = some "b" := by
  obtain ⟨h1, h2, h3, _, h5⟩ := connect_elements_partial_failure [elA, elB] [connAB, connAGhost]
  have hb := h5 connAB elA elB rfl rfl
  exact ⟨h1, h2.trans (by rfl), by rw [h3]; rfl, hb.2.2.1, hb.2.2.2.1⟩

/-- Autosizing never touches an element's id. -/
theorem autosize_id (m : Label → ℝ × ℝ) (e : Element) : (autosize m e).id = e.id := by
  unfold autosize
  split
  · cases h : e.label <;> rfl
  · rfl

/-- Evaluation of add_elements on a batch that passes the id check. -/
theorem addElements_run (measure : Label → ℝ × ℝ) (scene elements : List Element)
    (h : elements.all hasId = true) :
    addElements measure scene elements =
      (Except.ok (),
        scene.filter (fun e =>
          !(((elements.map (autosize measure)).map (fun x => x.id)).contains e.id))
        ++ elements.map (autosize measure)) := by
  have hmiss := (missing_indices_eq_nil elements).mpr h
  unfold addElements
  rw [if_neg (by simp [hmiss])]

/-- Claim C7 counterexample: adding a batch whose two elements share the
id "a" to the empty scene (whose ids are trivially distinct) produces a
scene carrying the id "a" twice — the resulting ids are not all-distinct. -/
theorem add_elements_duplicate_batch_ids :
    sceneIds (addElements mZero [] [elA, elA2]).2 = ["a", "a"]
    ∧ ¬ (["a", "a"] : List String).Nodup := by
  refine ⟨?_, by decide⟩
  rw [addElements_run mZero [] [elA, elA2] (by decide)]
  rfl

/-- Claim C7 amended: provided the added elements carry pairwise-distinct
ids among themselves, add_elements on a scene with all-distinct ids keeps
the ids all-distinct; every added id occurs exactly once afterward (fresh
or not — an existing element with that id is replaced, not duplicated),
and the resulting id set is the union of the old ids and the added ids. -/
theorem add_elements_upsert_nodup (measure : Label → ℝ × ℝ)
    (scene elements : List Element)
    (hscene : (sceneIds scene).Nodup)
    (hval : elements.all hasId = true)
    (hbatch : (elements.filterMap (fun e => e.id)).Nodup) :
    (sceneIds (addElements measure scene elements).2).Nodup
    ∧ (∀ s : String, s ∈ sceneIds (addElements measure scene elements).2 ↔
        (s ∈ sceneIds scene ∨ some s ∈ elements.map (fun e => e.id)))
    ∧ (∀ s : String, some s ∈ elements.map (fun e => e.id) →
        (sceneIds (addElements measure scene elements).2).count s = 1) := by
  rw [addElements_run measure scene elements hval]
  have hLids : (elements.map (autosize measure)).map (fun x => x.id)
      = elements.map (fun e => e.id) := by
    rw [List.map_map]
    exact List.map_congr_left (fun e _ => autosize_id measure e)
  have hLfm : sceneIds (elements.map (autosize measure))
      = elements.filterMap (fun e => e.id) := by
    unfold sceneIds
    rw [List.filterMap_map]
    exact List.filterMap_congr (fun e _ => autosize_id measure e)
  set pred := fun e : Element =>
    !(((elements.map (autosize measure)).map (fun x => x.id)).contains e.id) with hpred
  have hsplit : sceneIds (scene.filter pred ++ elements.map (autosize measure))
      = sceneIds (scene.filter pred) ++ elements.filterMap (fun e => e.id) := by
    unfold sceneIds
    rw [List.filterMap_append]
    unfold sceneIds at hLfm
    rw [hLfm]
  have hbase_sub : (sceneIds (scene.filter pred)).Sublist (sceneIds scene) :=
    (List.filter_sublist scene).filterMap _
  have hkept : ∀ s : String, s ∈ sceneIds (scene.filter pred) →
      some s ∉ elements.map (fun e => e.id) := by
    intro s hs hmem
    obtain ⟨e, he, heq⟩ := List.mem_filterMap.mp hs
    obtain ⟨hescene, hepred⟩ := List.mem_filter.mp he
    rw [hpred] at hepred
    simp only [Bool.not_eq_true'] at hepred
    have hmem2 : e.id ∈ (elements.map (autosize measure)).map (fun x => x.id) := by
      rw [hLids, heq]
      exact hmem
    have hc : ((elements.map (autosize measure)).map (fun x => x.id)).contains e.id = true :=
      List.elem_iff.mpr hmem2
    rw [hc] at hepred
    exact absurd hepred (by decide)
  have hbatch_of_mem : ∀ s : String, some s ∈ elements.map (fun e => e.id) →
      s ∈ elements.filterMap (fun e => e.id) := by
    intro s hmem
    obtain ⟨e, he, heq⟩ := List.mem_map.mp hmem
    exact List.mem_filterMap.mpr ⟨e, he, heq⟩
  refine ⟨?_, ?_, ?_⟩
  · show (sceneIds (scene.filter pred ++ elements.map (autosize measure))).Nodup
    rw [hsplit, List.nodup_append]
    refine ⟨hscene.sublist hbase_sub, hbatch, ?_⟩
    intro s hs hmem
    obtain ⟨e, he, heq⟩ := List.mem_filterMap.mp hmem
    exact hkept s hs (heq ▸ List.mem_map_of_mem (fun e => e.id) he)
  · intro s
    show s ∈ sceneIds (scene.filter pred ++ elements.map (autosize measure)) ↔ _
    rw [hsplit, List.mem_append]
    constructor
    · rintro (hs | hs)
      · obtain ⟨e, he, heq⟩ := List.mem_filterMap.mp hs
        exact Or.inl (List.mem_filterMap.mpr ⟨e, List.mem_of_mem_filter he, heq⟩)
      · obtain ⟨e, he, heq⟩ := List.mem_filterMap.mp hs
        exact Or.inr (heq ▸ List.mem_map_of_mem (fun e => e.id) he)
    · rintro (hs | hs)
      · obtain ⟨e, he, heq⟩ := List.mem_filterMap.mp hs
        by_cases hmem : some s ∈ elements.map (fun e => e.id)
        · exact Or.inr (hbatch_of_mem s hmem)
        · refine Or.inl (List.mem_filterMap.mpr ⟨e, List.mem_filter.mpr ⟨he, ?_⟩, heq⟩)
          rw [hpred]
          simp only [Bool.not_eq_true']
          rw [hLids]
          by_contra hc
          simp only [Bool.not_eq_false] at hc
          exact hmem (heq ▸ List.elem_iff.mp hc)
      · exact Or.inr (hbatch_of_mem s hs)
  · intro s hmem
    show (sceneIds (scene.filter pred ++ elements.map (autosize measure))).count s = 1
    rw [hsplit, List.count_append]
    have h1 : (sceneIds (scene.filter pred)).count s = 0 :=
      List.count_eq_zero.mpr (fun hs => hkept s hs hmem)
    have h2 : (elements.filterMap (fun e => e.id)).count s = 1 :=
      List.count_eq_one_of_mem hbatch (hbatch_of_mem s hmem)
    rw [h1, h2]


/-- Claim C7 witness: adding elements with ids "a" (already present) and
"c" (fresh) to the scene with ids "a", "b" keeps the ids distinct, yields
the union of ids, and each added id occurs exactly once. -/
theorem add_elements_upsert_nodup_witness :
    (sceneIds (addElements mZero [elA, elB] [elA2, elC2]).2).Nodup
    ∧ (sceneIds (addElements mZero [elA, elB] [elA2, elC2]).2).count "a" = 1
    ∧ (sceneIds (addElements mZero [elA, elB] [elA2, elC2]).2).count "c" = 1 := by
  obtain ⟨h1, _, h3⟩ :=
    add_elements_upsert_nodup mZero [elA, elB] [elA2, elC2] (by decide) (by decide) (by decide)
  exact ⟨h1, h3 "a" (by decide), h3 "c" (by decide)⟩

/-- For a natural column count, the JS floor/remainder arithmetic of
gridPos agrees with natural division and modulo. -/
theorem gridPos_eq_gridSlot (origin : ℝ × ℝ) (n : ℕ) (hn : 1 ≤ n) (gX gY : ℝ) (k : ℕ) :
    gridPos origin (n : ℝ) gX gY k = gridSlot origin n gX gY k := by
  have hn0 : (0 : ℝ) < (n : ℝ) := by
    have : 0 < n := by omega
    exact_mod_cast this
  have hdm : n * (k / n) + k % n = k := Nat.div_add_mod k n
  have hfloor : ⌊(k : ℝ) / (n : ℝ)⌋ = ((k / n : ℕ) : ℤ) := by
    rw [Int.floor_eq_iff]
    constructor
    · rw [le_div_iff₀ hn0]
      push_cast
      exact_mod_cast Nat.div_mul_le_self k n
    · rw [div_lt_iff₀ hn0]
      have hlt : k < (k / n + 1) * n := by
        have hmod : k % n < n := Nat.mod_lt _ (by omega)
        calc k = n * (k / n) + k % n := hdm.symm
          _ < n * (k / n) + n := by omega
          _ = (k / n + 1) * n := by ring
      exact_mod_cast hlt
  have hcast : ((n : ℝ)) * ((k / n : ℕ) : ℝ) + ((k % n : ℕ) : ℝ) = (k : ℝ) := by
    exact_mod_cast hdm
  unfold gridPos gridSlot
  rw [hfloor, Int.cast_natCast]
  rw [Prod.mk.injEq]
  refine ⟨?_, rfl⟩
  have hx : (k : ℝ) - (n : ℝ) * ((k / n : ℕ) : ℝ) = ((k % n : ℕ) : ℝ) := by linarith [hcast]
  rw [hx]

/-- If a predicate picks out a unique element of a list, find? returns it. -/
theorem find?_eq_some_of_unique {α : Type} (p : α → Bool) :
    ∀ (l : List α) (x : α), x ∈ l → p x = true → (∀ y ∈ l, p y = true → y = x) →
      l.find? p = some x := by
  intro l
  induction l with
  | nil => intro x hx _ _; cases hx
  | cons a tl ih =>
    intro x hx hpx huniq
    cases hpa : p a
    · rw [List.find?_cons_of_neg _ (by simp [hpa])]
      have hxtl : x ∈ tl := by
        rcases List.mem_cons.mp hx with h | h
        · rw [h] at hpx; rw [hpx] at hpa; cases hpa
        · exact h
      exact ih x hxtl hpx (fun y hy hpy => huniq y (List.mem_cons_of_mem a hy) hpy)
    · rw [List.find?_cons_of_pos _ hpa]
      rw [huniq a (List.mem_cons_self a tl) hpa]

/-- Claim C9 counterexample: when every requested id is missing,
layout_grid returns an error (carrying the requested ids) instead of the
claimed success with all ids in notFound; the scene is unchanged. -/
theorem layout_grid_errors_when_all_missing :
    layoutGrid [elA] ["ghost"] (0, 0) 1 Option.none Option.none
      = (Except.error ["ghost"], [elA]) := rfl

/-- Claim C9 amended: for a natural column count cols ≥ 1, pairwise
distinct requested ids, and at least one requested id present in the
scene, layout_grid returns success with the found ids (in request order)
in laidOut and the missing ids in notFound; the k-th found id has its
position set to origin + (k mod cols, k div cols) * gaps (gaps defaulting
to 200 and 120) with all its other properties kept, and elements whose id
was not found in the request are unchanged.  When every requested id is
missing the handler instead returns an error and changes nothing. -/
theorem layout_grid_partial (scene : List Element) (ids : List String) (origin : ℝ × ℝ)
    (n : ℕ) (gx gy : Option ℝ)
    (hn : 1 ≤ n) (hnodup : ids.Nodup)
    (hfound : ∃ i ∈ ids, some i ∈ scene.map (fun e => e.id)) :
    (layoutGrid scene ids origin (n : ℝ) gx gy).1
      = Except.ok
          (ids.filter (fun i => (scene.map (fun e => e.id)).contains (some i)),
           ids.filter (fun i => !((scene.map (fun e => e.id)).contains (some i))))
    ∧ (layoutGrid scene ids origin (n : ℝ) gx gy).2.length = scene.length
    ∧ (∀ e ∈ scene, ∀ s : String, e.id = some s →
        ∀ k : ℕ,
          (ids.filter (fun i => (scene.map (fun e => e.id)).contains (some i)))[k]? = some s →
          { e with
              x := some (gridSlot origin n (gx.getD 200) (gy.getD 120) k).1
              y := some (gridSlot origin n (gx.getD 200) (gy.getD 120) k).2 }
            ∈ (layoutGrid scene ids origin (n : ℝ) gx gy).2)
    ∧ (∀ e ∈ scene,
        (∀ s : String, e.id = some s →
          s ∉ ids.filter (fun i => (scene.map (fun e => e.id)).contains (some i))) →
        e ∈ (layoutGrid scene ids origin (n : ℝ) gx gy).2) := by
  have hcond : ¬((ids.filter
      (fun i => !((scene.map (fun e => e.id)).contains (some i)))).length = ids.length) := by
    intro hlen
    have heqq : ids.filter (fun i => !((scene.map (fun e => e.id)).contains (some i))) = ids :=
      (List.filter_sublist ids).eq_of_length hlen
    obtain ⟨i, hi, hmem⟩ := hfound
    have hmemf : i ∈ ids.filter (fun i => !((scene.map (fun e => e.id)).contains (some i))) := by
      rw [heqq]
      exact hi
    have hq := (List.mem_filter.mp hmemf).2
    simp only [Bool.not_eq_true'] at hq
    have hc : (scene.map (fun e => e.id)).contains (some i) = true := List.elem_iff.mpr hmem
    rw [hc] at hq
    cases hq
  have htnodup : (ids.filter
      (fun i => (scene.map (fun e => e.id)).contains (some i))).Nodup := hnodup.filter _
  simp only [layoutGrid]
  rw [if_neg hcond]
  refine ⟨rfl, by simp, ?_, ?_⟩
  · intro e he s hs k hk
    have hinj : ∀ i j : ℕ,
        (ids.filter (fun i => (scene.map (fun e => e.id)).contains (some i)))[i]? = some s →
        (ids.filter (fun i => (scene.map (fun e => e.id)).contains (some i)))[j]? = some s →
        i = j := by
      intro i j hi hj
      rw [List.getElem?_eq_some] at hi hj
      obtain ⟨hi1, hi2⟩ := hi
      obtain ⟨hj1, hj2⟩ := hj
      exact (List.Nodup.getElem_inj_iff htnodup).mp (hi2.trans hj2.symm)
    have hfind : (((ids.filter
          (fun i => (scene.map (fun e => e.id)).contains (some i))).enum.map
            (fun p => (p.2, gridPos origin (n : ℝ) (gx.getD 200) (gy.getD 120) p.1))).reverse.find?
          (fun q : String × ℝ × ℝ => q.1 == s))
        = some (s, gridPos origin (n : ℝ) (gx.getD 200) (gy.getD 120) k) := by
      apply find?_eq_some_of_unique
      · rw [List.mem_reverse]
        exact List.mem_map.mpr ⟨(k, s), List.mk_mem_enum_iff_getElem?.mpr hk, rfl⟩
      · simp
      · intro y hy hpy
        obtain ⟨⟨j, a⟩, hja, hya⟩ := List.mem_map.mp (List.mem_reverse.mp hy)
        have ha : a = s := by
          rw [← hya] at hpy
          exact eq_of_beq hpy
        have hj : (ids.filter
            (fun i => (scene.map (fun e => e.id)).contains (some i)))[j]? = some s :=
          ha ▸ List.mk_mem_enum_iff_getElem?.mp hja
        have : j = k := hinj j k hj hk
        rw [← hya, ha, this]
    refine List.mem_map.mpr ⟨e, he, ?_⟩
    rw [hs]
    simp only [hfind, Option.map_some']
    rw [gridPos_eq_gridSlot origin n hn (gx.getD 200) (gy.getD 120) k]
  · intro e he hnot
    refine List.mem_map.mpr ⟨e, he, ?_⟩
    rcases hid : e.id with _ | s
    · rfl
    · have hnmem := hnot s hid
      have hfind : (((ids.filter
            (fun i => (scene.map (fun e => e.id)).contains (some i))).enum.map
              (fun p => (p.2, gridPos origin (n : ℝ) (gx.getD 200) (gy.getD 120) p.1))).reverse.find?
            (fun q : String × ℝ × ℝ => q.1 == s))
          = Option.none := by
        rw [List.find?_eq_none]
        intro y hy
        obtain ⟨⟨j, a⟩, hja, hya⟩ := List.mem_map.mp (List.mem_reverse.mp hy)
        intro hbeq
        have ha : a = s := by
          rw [← hya] at hbeq
          exact eq_of_beq hbeq
        have hj := List.mk_mem_enum_iff_getElem?.mp hja
        exact hnmem (ha ▸ List.getElem?_mem hj)
      simp only [hfind, Option.map_none']


/-- Claim C9 witness: scene with ids "a", "b"; request ["a","b","ghost"]
with origin (10,20), 2 columns and default gaps — success, laidOut
["a","b"], notFound ["ghost"], and element "b" moved to the slot of index
1 (column 1, row 0). -/
theorem layout_grid_partial_witness :
    (layoutGrid [elA, elB] ["a", "b", "ghost"] (10, 20) ((2 : ℕ) : ℝ)
        Option.none Option.none).1
      = Except.ok (["a", "b"], ["ghost"])
    ∧ { elB with
          x := some (gridSlot (10, 20) 2 200 120 1).1
          y := some (gridSlot (10, 20) 2 200 120 1).2 }
        ∈ (layoutGrid [elA, elB] ["a", "b", "ghost"] (10, 20) ((2 : ℕ) : ℝ)
            Option.none Option.none).2 := by
  obtain ⟨h1, _, h3, _⟩ :=
    layout_grid_partial [elA, elB] ["a", "b", "ghost"] (10, 20) 2 Option.none Option.none
      (by decide) (by decide) ⟨"a", by decide, by decide⟩
  refine ⟨h1.trans (by rfl), ?_⟩
  have := h3 elB (List.mem_cons_of_mem _ (List.mem_cons_self _ _)) "b" rfl 1 (by rfl)
  simpa using this

/-- Evaluation of unitVec once the length is known and nonzero. -/
theorem unitVec_eval (p q : XY) (L : ℝ)
    (hL : Real.sqrt ((q.x - p.x) ^ 2 + (q.y - p.y) ^ 2) = L) (h0 : ¬ L = 0) :
    unitVec p q = ⟨(q.x - p.x) / L, (q.y - p.y) / L⟩ := by
  simp only [unitVec]
  rw [hL, if_neg h0]

/-- The direction vector of unitVec has unit norm when the target differs
from the base point. -/
theorem unitVec_sq_norm (p q : XY) (h : q ≠ p) :
    (unitVec p q).x ^ 2 + (unitVec p q).y ^ 2 = 1 := by
  have hdxy : ¬(q.x - p.x = 0 ∧ q.y - p.y = 0) := by
    intro ⟨h1, h2⟩
    apply h
    have hx : q.x = p.x := by linarith
    have hy : q.y = p.y := by linarith
    cases q
    cases p
    simp_all
  have hsum : 0 < (q.x - p.x) ^ 2 + (q.y - p.y) ^ 2 := by
    rcases not_and_or.mp hdxy with h1 | h1
    · nlinarith [pow_two_pos_of_ne_zero h1, sq_nonneg (q.y - p.y)]
    · nlinarith [pow_two_pos_of_ne_zero h1, sq_nonneg (q.x - p.x)]
  have hL : 0 < Real.sqrt ((q.x - p.x) ^ 2 + (q.y - p.y) ^ 2) := Real.sqrt_pos.mpr hsum
  have hL2 : Real.sqrt ((q.x - p.x) ^ 2 + (q.y - p.y) ^ 2) ^ 2
      = (q.x - p.x) ^ 2 + (q.y - p.y) ^ 2 := Real.sq_sqrt hsum.le
  rw [unitVec_eval p q _ rfl (ne_of_gt hL)]
  show ((q.x - p.x) / _) ^ 2 + ((q.y - p.y) / _) ^ 2 = 1
  rw [div_pow, div_pow, div_add_div_same, hL2]
  exact div_self (ne_of_gt hsum)

/-- Both components of the direction vector cannot vanish when the target
differs from the base point. -/
theorem unitVec_not_both_zero (p q : XY) (h : q ≠ p) :
    ¬((unitVec p q).x = 0 ∧ (unitVec p q).y = 0) := by
  intro ⟨hx, hy⟩
  have hn := unitVec_sq_norm p q h
  rw [hx, hy] at hn
  norm_num at hn

/-- The spec's min-with-infinity over the two guarded quotients evaluates
to the case split used by rectEdge, as long as the direction vector is not
identically zero. -/
theorem rect_core (rx ry : ℝ) (d : XY) (hd : ¬(d.x = 0 ∧ d.y = 0)) :
    minInf (divInf rx d.x) (divInf ry d.y)
      = some (if d.x = 0 then (if d.y = 0 then 0 else ry / |d.y|)
              else if d.y = 0 then rx / |d.x| else min (rx / |d.x|) (ry / |d.y|)) := by
  by_cases hx : d.x = 0 <;> by_cases hy : d.y = 0 <;>
    simp [divInf, minInf, hx, hy] at hd ⊢

/-- A degenerate segment is never hit (its direction cross product is 0,
below the 1e-8 guard). -/
theorem raySegHit_degenerate (origin dir a : XY) : raySegHit origin dir a a = Option.none := by
  have hc : |dir.x * (a.y - a.y) - dir.y * (a.x - a.x)| < 1e-8 := by norm_num
  simp only [raySegHit, sub, cross]
  rw [if_pos hc]

/-- Evaluation of rectEdge from its intermediate quantities. -/
theorem rectEdge_eval (el : Element) (toward : XY) (cx cy rx ry dx dy u : ℝ)
    (hcx : el.x.getD 0 + el.width.getD 0 / 2 = cx)
    (hcy : el.y.getD 0 + el.height.getD 0 / 2 = cy)
    (hrx : el.width.getD 0 / 2 = rx)
    (hry : el.height.getD 0 / 2 = ry)
    (hd : unitVec ⟨cx, cy⟩ toward = ⟨dx, dy⟩)
    (hu : (if dx = 0 then (if dy = 0 then 0 else ry / |dy|)
           else if dy = 0 then rx / |dx| else min (rx / |dx|) (ry / |dy|)) = u) :
    rectEdge el toward = ⟨cx + dx * u, cy + dy * u⟩ := by
  simp only [rectEdge]
  rw [hcx, hcy, hrx, hry, hd]
  dsimp only
  rw [hu]

/-- Evaluation of ellipseEdge from its intermediate quantities. -/
theorem ellipseEdge_eval (el : Element) (toward : XY) (cx cy rx ry dx dy t : ℝ)
    (hcx : el.x.getD 0 + el.width.getD 0 / 2 = cx)
    (hcy : el.y.getD 0 + el.height.getD 0 / 2 = cy)
    (hrx : max 1e-6 (el.width.getD 0 / 2) = rx)
    (hry : max 1e-6 (el.height.getD 0 / 2) = ry)
    (hd : unitVec ⟨cx, cy⟩ toward = ⟨dx, dy⟩)
    (ht : 1 / Real.sqrt (dx ^ 2 / rx ^ 2 + dy ^ 2 / ry ^ 2) = t) :
    ellipseEdge el toward = ⟨cx + dx * t, cy + dy * t⟩ := by
  simp only [ellipseEdge]
  rw [hcx, hcy, hrx, hry, hd]
  dsimp only
  rw [ht]

/-- Evaluation of the spec ellipse formula from its intermediate
quantities. -/
theorem ellipseEdgeSpec_eval (el : Element) (toward : XY) (cx cy rx ry dx dy t : ℝ)
    (hcx : el.x.getD 0 + el.width.getD 0 / 2 = cx)
    (hcy : el.y.getD 0 + el.height.getD 0 / 2 = cy)
    (hrx : el.width.getD 0 / 2 = rx)
    (hry : el.height.getD 0 / 2 = ry)
    (hd : unitVec ⟨cx, cy⟩ toward = ⟨dx, dy⟩)
    (ht : 1 / Real.sqrt (dx ^ 2 / rx ^ 2 + dy ^ 2 / ry ^ 2) = t) :
    ellipseEdgeSpec el toward = ⟨cx + dx * t, cy + dy * t⟩ := by
  simp only [ellipseEdgeSpec, centerPoint]
  rw [hcx, hcy, hrx, hry, hd]
  dsimp only
  rw [ht]

/-- The unit direction toward a target directly to the right. -/
theorem unitVec_horiz (cx cy tx : ℝ) (h : cx < tx) :
    unitVec ⟨cx, cy⟩ ⟨tx, cy⟩ = ⟨1, 0⟩ := by
  have hpos : (0 : ℝ) < tx - cx := by linarith
  have hL : Real.sqrt ((tx - cx) ^ 2 + (cy - cy) ^ 2) = tx - cx := by
    have h1 : (tx - cx) ^ 2 + (cy - cy) ^ 2 = (tx - cx) ^ 2 := by ring
    rw [h1, Real.sqrt_sq hpos.le]
  rw [unitVec_eval ⟨cx, cy⟩ ⟨tx, cy⟩ (tx - cx) hL (ne_of_gt hpos)]
  rw [XY.mk.injEq]
  constructor
  · exact div_self (ne_of_gt hpos)
  · simp

/-- The unit direction toward a target directly below. -/
theorem unitVec_vert (cx cy ty : ℝ) (h : cy < ty) :
    unitVec ⟨cx, cy⟩ ⟨cx, ty⟩ = ⟨0, 1⟩ := by
  have hpos : (0 : ℝ) < ty - cy := by linarith
  have hL : Real.sqrt ((cx - cx) ^ 2 + (ty - cy) ^ 2) = ty - cy := by
    have h1 : (cx - cx) ^ 2 + (ty - cy) ^ 2 = (ty - cy) ^ 2 := by ring
    rw [h1, Real.sqrt_sq hpos.le]
  rw [unitVec_eval ⟨cx, cy⟩ ⟨cx, ty⟩ (ty - cy) hL (ne_of_gt hpos)]
  rw [XY.mk.injEq]
  constructor
  · simp
  · exact div_self (ne_of_gt hpos)

/-- Claim C3: for a rectangle with nonzero width and height and a target
distinct from the center, rectEdge computes exactly the spec formula
center + d * min(halfWidth / |d.x|, halfHeight / |d.y|) with division by
zero treated as infinity. -/
theorem rect_edge_matches_formula (el : Element) (toward : XY)
    (hw : el.width.getD 0 ≠ 0) (hh : el.height.getD 0 ≠ 0)
    (ht : toward ≠ centerPoint el) :
    rectEdgeSpec el toward = some (rectEdge el toward) := by
  have hd : ¬((unitVec (centerPoint el) toward).x = 0
      ∧ (unitVec (centerPoint el) toward).y = 0) :=
    unitVec_not_both_zero (centerPoint el) toward ht
  simp only [centerPoint] at hd
  simp only [rectEdgeSpec, rectEdge, centerPoint]
  rw [rect_core (el.width.getD 0 / 2) (el.height.getD 0 / 2) _ hd]

/-- Claim C3 witness: the rectangle centered at (100,100) with width 200
and height 100 and target (500,100) matches the formula and yields the
boundary point (200,100) exactly. -/
theorem rect_edge_matches_formula_witness :
    rectEdgeSpec rectW ⟨500, 100⟩ = some (rectEdge rectW ⟨500, 100⟩)
    ∧ rectEdge rectW ⟨500, 100⟩ = ⟨200, 100⟩ := by
  have hcenter : centerPoint rectW = ⟨100, 100⟩ := by
    simp only [centerPoint, rectW]
    norm_num
  have hd : unitVec ⟨(100 : ℝ), 100⟩ ⟨500, 100⟩ = ⟨1, 0⟩ :=
    unitVec_horiz 100 100 500 (by norm_num)
  constructor
  · exact rect_edge_matches_formula rectW ⟨500, 100⟩
      (by simp [rectW]) (by simp [rectW])
      (by rw [hcenter]; simp [XY.mk.injEq])
  · have he := rectEdge_eval rectW ⟨500, 100⟩ 100 100 100 50 1 0 100
      (by simp [rectW]; norm_num) (by simp [rectW]; norm_num)
      (by simp [rectW]; norm_num) (by simp [rectW]; norm_num)
      hd (by norm_num)
    rw [he]
    norm_num

/-- Claim C4 counterexample: the handler clamps the radii from below at
1e-6, so an ellipse with the nonzero width 1e-9 yields the boundary point
(1e-6, 0) while the claimed formula (with rx the half-width) yields
(5e-10, 0) — the two differ. -/
theorem ellipse_edge_clamp_cex :
    ellipseEdge ellTiny ⟨1000, 0⟩ = ⟨1e-6, 0⟩
    ∧ ellipseEdgeSpec ellTiny ⟨1000, 0⟩ = ⟨5e-10, 0⟩
    ∧ ((⟨1e-6, 0⟩ : XY) ≠ (⟨5e-10, 0⟩ : XY)) := by
  have hd : unitVec ⟨(0 : ℝ), 0⟩ ⟨1000, 0⟩ = ⟨1, 0⟩ :=
    unitVec_horiz 0 0 1000 (by norm_num)
  have hcx : ellTiny.x.getD 0 + ellTiny.width.getD 0 / 2 = 0 := by
    simp [ellTiny]
    norm_num
  have hcy : ellTiny.y.getD 0 + ellTiny.height.getD 0 / 2 = 0 := by
    simp [ellTiny]
    norm_num
  refine ⟨?_, ?_, ?_⟩
  · have hrx : max 1e-6 (ellTiny.width.getD 0 / 2) = 1e-6 := by
      have h1 : ellTiny.width.getD 0 = 1e-9 := by simp [ellTiny]
      rw [h1]
      exact max_eq_left (by norm_num)
    have hry : max 1e-6 (ellTiny.height.getD 0 / 2) = 25 := by
      have h1 : ellTiny.height.getD 0 = 50 := by simp [ellTiny]
      rw [h1]
      norm_num
    have ht : 1 / Real.sqrt ((1 : ℝ) ^ 2 / (1e-6 : ℝ) ^ 2 + (0 : ℝ) ^ 2 / (25 : ℝ) ^ 2)
        = 1e-6 := by
      have hsum : (1 : ℝ) ^ 2 / (1e-6 : ℝ) ^ 2 + (0 : ℝ) ^ 2 / (25 : ℝ) ^ 2
          = (1e6 : ℝ) ^ 2 := by norm_num
      rw [hsum, Real.sqrt_sq (by norm_num : (0 : ℝ) ≤ 1e6)]
      norm_num
    have he := ellipseEdge_eval ellTiny ⟨1000, 0⟩ 0 0 1e-6 25 1 0 1e-6 hcx hcy hrx hry hd ht
    rw [he]
    norm_num
  · have hrx : ellTiny.width.getD 0 / 2 = 5e-10 := by
      simp [ellTiny]
      norm_num
    have hry : ellTiny.height.getD 0 / 2 = 25 := by
      simp [ellTiny]
      norm_num
    have ht : 1 / Real.sqrt ((1 : ℝ) ^ 2 / (5e-10 : ℝ) ^ 2 + (0 : ℝ) ^ 2 / (25 : ℝ) ^ 2)
        = 5e-10 := by
      have hsum : (1 : ℝ) ^ 2 / (5e-10 : ℝ) ^ 2 + (0 : ℝ) ^ 2 / (25 : ℝ) ^ 2
          = (2e9 : ℝ) ^ 2 := by norm_num
      rw [hsum, Real.sqrt_sq (by norm_num : (0 : ℝ) ≤ 2e9)]
      norm_num
    have he := ellipseEdgeSpec_eval ellTiny ⟨1000, 0⟩ 0 0 5e-10 25 1 0 5e-10 hcx hcy hrx hry hd ht
    rw [he]
    norm_num
  · rw [Ne, XY.mk.injEq]
    norm_num

/-- Claim C4 amended: for every ellipse whose width and height are at
least 2e-6 (so that the 1e-6 radius clamp is inert) the computed boundary
point equals the spec formula center + d / sqrt(d.x^2 / rx^2 + d.y^2 /
ry^2) with rx, ry the half-dimensions; below that size the clamp makes
the result differ from the formula. -/
theorem ellipse_edge_matches_formula (el : Element) (toward : XY)
    (hw : 2e-6 ≤ el.width.getD 0) (hh : 2e-6 ≤ el.height.getD 0)
    (ht : toward ≠ centerPoint el) :
    ellipseEdge el toward = ellipseEdgeSpec el toward := by
  have h1 : max 1e-6 (el.width.getD 0 / 2) = el.width.getD 0 / 2 :=
    max_eq_right (by linarith)
  have h2 : max 1e-6 (el.height.getD 0 / 2) = el.height.getD 0 / 2 :=
    max_eq_right (by linarith)
  simp only [ellipseEdge, ellipseEdgeSpec, centerPoint]
  rw [h1, h2]

/-- Claim C4 witness: the ellipse centered at (0,0) with rx = 50 and
ry = 25 and target (1000,0) satisfies the formula and yields the boundary
point (50,0) exactly. -/
theorem ellipse_edge_matches_formula_witness :
    ellipseEdge ellW ⟨1000, 0⟩ = ellipseEdgeSpec ellW ⟨1000, 0⟩
    ∧ ellipseEdge ellW ⟨1000, 0⟩ = ⟨50, 0⟩ := by
  have hcenter : centerPoint ellW = ⟨0, 0⟩ := by
    simp only [centerPoint, ellW]
    norm_num
  have hd : unitVec ⟨(0 : ℝ), 0⟩ ⟨1000, 0⟩ = ⟨1, 0⟩ :=
    unitVec_horiz 0 0 1000 (by norm_num)
  constructor
  · exact ellipse_edge_matches_formula ellW ⟨1000, 0⟩
      (by simp [ellW]; norm_num) (by simp [ellW]; norm_num)
      (by rw [hcenter]; simp [XY.mk.injEq])
  · have ht : 1 / Real.sqrt ((1 : ℝ) ^ 2 / (50 : ℝ) ^ 2 + (0 : ℝ) ^ 2 / (25 : ℝ) ^ 2)
        = 50 := by
      have hsum : (1 : ℝ) ^ 2 / (50 : ℝ) ^ 2 + (0 : ℝ) ^ 2 / (25 : ℝ) ^ 2
          = ((1 : ℝ) / 50) ^ 2 := by norm_num
      rw [hsum, Real.sqrt_sq (by norm_num : (0 : ℝ) ≤ (1 : ℝ) / 50)]
      norm_num
    have he := ellipseEdge_eval ellW ⟨1000, 0⟩ 0 0 50 25 1 0 50
      (by simp [ellW]; norm_num) (by simp [ellW]; norm_num)
      (by simp [ellW]; norm_num) (by simp [ellW]; norm_num)
      hd ht
    rw [he]
    norm_num

/-- Claim C5 counterexample: for a rectangle with zero width and height
100 and a target directly below, the boundary computation returns the
bottom endpoint (0,100) of the degenerate segment, not the center
(0,50). -/
theorem degenerate_width_not_center :
    edgePoint rectZeroW ⟨0, 1000⟩ = ⟨0, 100⟩
    ∧ centerPoint rectZeroW = ⟨0, 50⟩
    ∧ ((⟨(0 : ℝ), 100⟩ : XY) ≠ ⟨0, 50⟩) := by
  have hd : unitVec ⟨(0 : ℝ), 50⟩ ⟨0, 1000⟩ = ⟨0, 1⟩ :=
    unitVec_vert 0 50 1000 (by norm_num)
  refine ⟨?_, ?_, ?_⟩
  · have hrect : edgePoint rectZeroW ⟨0, 1000⟩ = rectEdge rectZeroW ⟨0, 1000⟩ := rfl
    rw [hrect]
    have he := rectEdge_eval rectZeroW ⟨0, 1000⟩ 0 50 0 50 0 1 50
      (by simp [rectZeroW]) (by simp [rectZeroW]; norm_num)
      (by simp [rectZeroW]) (by simp [rectZeroW]; norm_num)
      hd (by norm_num)
    rw [he]
    norm_num
  · simp only [centerPoint, rectZeroW]
    norm_num
  · rw [Ne, XY.mk.injEq]
    norm_num

/-- Claim C5 amended: for a target distinct from the center, a shape with
BOTH dimensions zero degenerates to the center for the rectangle and the
diamond, while the ellipse (whose radii are clamped at 1e-6) returns a
point at distance exactly 1e-6 from the center; no division by zero is
performed (the zero-divisor branches are guarded).  When only one
dimension is zero the result can instead be an endpoint of the degenerate
segment (see the counterexample). -/
theorem degenerate_dims_edge (el : Element) (toward : XY)
    (hw : el.width.getD 0 = 0) (hh : el.height.getD 0 = 0)
    (ht : toward ≠ centerPoint el) :
    rectEdge el toward = centerPoint el
    ∧ diamondEdge el toward = centerPoint el
    ∧ dist (ellipseEdge el toward) (centerPoint el) = 1e-6 := by
  have hnorm := unitVec_sq_norm (centerPoint el) toward ht
  refine ⟨?_, ?_, ?_⟩
  · simp [rectEdge, centerPoint, hw, hh]
  · simp [diamondEdge, centerPoint, hw, hh, raySegHit_degenerate]
  · have hrx : max 1e-6 (el.width.getD 0 / 2) = 1e-6 := by
      rw [hw]
      norm_num
    have hry : max 1e-6 (el.height.getD 0 / 2) = 1e-6 := by
      rw [hh]
      norm_num
    set d := unitVec (centerPoint el) toward with hdd
    have hsum : d.x ^ 2 / (1e-6 : ℝ) ^ 2 + d.y ^ 2 / (1e-6 : ℝ) ^ 2 = (1e6 : ℝ) ^ 2 := by
      rw [div_add_div_same, hnorm]
      norm_num
    have ht2 : 1 / Real.sqrt (d.x ^ 2 / (1e-6 : ℝ) ^ 2 + d.y ^ 2 / (1e-6 : ℝ) ^ 2)
        = 1e-6 := by
      rw [hsum, Real.sqrt_sq (by norm_num : (0 : ℝ) ≤ 1e6)]
      norm_num
    have hd : unitVec ⟨(centerPoint el).x, (centerPoint el).y⟩ toward = ⟨d.x, d.y⟩ := rfl
    have he := ellipseEdge_eval el toward ((centerPoint el).x) ((centerPoint el).y)
      1e-6 1e-6 d.x d.y 1e-6 rfl rfl hrx hry hd ht2
    rw [he]
    simp only [dist]
    have hsq : ((centerPoint el).x + d.x * 1e-6 - (centerPoint el).x) ^ 2
        + ((centerPoint el).y + d.y * 1e-6 - (centerPoint el).y) ^ 2
        = ((1e-6 : ℝ)) ^ 2 := by
      have h3 : ((centerPoint el).x + d.x * 1e-6 - (centerPoint el).x) ^ 2
          + ((centerPoint el).y + d.y * 1e-6 - (centerPoint el).y) ^ 2
          = (d.x ^ 2 + d.y ^ 2) * (1e-6 : ℝ) ^ 2 := by ring
      rw [h3, hnorm, one_mul]
    rw [hsq, Real.sqrt_sq (by norm_num : (0 : ℝ) ≤ 1e-6)]

/-- Claim C5 witness: a concrete shape with both dimensions zero at
center (3,4), with target (10,4). -/
theorem degenerate_dims_edge_witness :
    rectEdge shapeZZ ⟨10, 4⟩ = centerPoint shapeZZ
    ∧ diamondEdge shapeZZ ⟨10, 4⟩ = centerPoint shapeZZ
    ∧ dist (ellipseEdge shapeZZ ⟨10, 4⟩) (centerPoint shapeZZ) = 1e-6 := by
  have hcenter : centerPoint shapeZZ = ⟨3, 4⟩ := by
    simp only [centerPoint, shapeZZ]
    norm_num
  exact degenerate_dims_edge shapeZZ ⟨10, 4⟩ (by simp [shapeZZ]) (by simp [shapeZZ])
    (by rw [hcenter]; simp [XY.mk.injEq])

end Excalidraw
